import Mathlib

/-!
Shallow embedding of the real-time room-synchronization server of this
repository (the socket.io server in `src/useSocket.ts`, lines 71-289).

JavaScript `Map` objects (`rooms`, `room.members`) are modelled as
association lists with unique keys, preserving insertion order exactly as
`Map` does (`set` on an existing key updates the value in place, `delete`
removes the entry, `Array.from(map.values())` lists values in insertion
order).  The socket.io room adapter (the sets of sockets maintained by
`socket.join` / `socket.leave` / automatic removal on disconnect) is
modelled alongside, since it determines the recipients of
`socket.to(roomId).emit` (room minus sender) and `io.to(roomId).emit`
(whole room).
-/

/-- Model of a JS `Map.get`: first entry with the given key, if any. -/
def mget {α : Type} (k : String) : List (String × α) → Option α
  | [] => none
  | (k₂, v) :: r => if k₂ = k then some v else mget k r

/-- Model of a JS `Map.set`: update the value in place if the key is
present (keeping its position), otherwise append the entry at the end. -/
def mset {α : Type} (k : String) (v : α) : List (String × α) → List (String × α)
  | [] => [(k, v)]
  | (k₂, v₂) :: r => if k₂ = k then (k₂, v) :: r else (k₂, v₂) :: mset k v r

/-- Model of a JS `Map.delete`: remove the entry with the given key. -/
def mdel {α : Type} (k : String) : List (String × α) → List (String × α)
  | [] => []
  | (k₂, v₂) :: r => if k₂ = k then r else (k₂, v₂) :: mdel k r

/-- `RoomMember` from `src/useSocket.ts`: `id`, `name`, optional `image`. -/
structure RoomMember where
  id : String
  name : String
  image : Option String
deriving Repr, DecidableEq

/-- `VideoState` from `src/useSocket.ts`: `url`, `timestamp`, `isPlaying`.
The JS number `timestamp` is treated as an opaque value the server only
stores and forwards, modelled as an integer. -/
structure VideoState where
  url : String
  timestamp : Int
  isPlaying : Bool
deriving Repr, DecidableEq

/-- `RoomState` from `src/useSocket.ts`: `members` map and optional
`videoState`. -/
structure RoomState where
  members : List (String × RoomMember)
  videoState : Option VideoState
deriving Repr, DecidableEq

/-- Whole-server state: the `rooms` map plus the socket.io adapter's
room-to-sockets mapping (which sockets called `socket.join` on which room
and have not left or disconnected). -/
structure ServerState where
  rooms : List (String × RoomState)
  adapter : List (String × List String)
deriving Repr, DecidableEq

/-- Sockets currently in a room according to the socket.io adapter. -/
def adapterMembers (rid : String) (a : List (String × List String)) : List String :=
  (mget rid a).getD []

/-- `socket.join(roomId)`: add the socket to the adapter room (no-op if
already present). -/
def adapterJoin (sid rid : String) (a : List (String × List String)) : List (String × List String) :=
  let cur := adapterMembers rid a
  if sid ∈ cur then a else mset rid (cur ++ [sid]) a

/-- `socket.leave(roomId)`: remove the socket from the adapter room. -/
def adapterLeaveRoom (sid rid : String) (a : List (String × List String)) : List (String × List String) :=
  match mget rid a with
  | none => a
  | some cur => mset rid (cur.filter (fun s => s ≠ sid)) a

/-- Automatic adapter cleanup on disconnect: the socket is removed from
every adapter room before the `disconnect` handler runs. -/
def adapterLeaveAll (sid : String) (a : List (String × List String)) : List (String × List String) :=
  a.map (fun e => (e.1, e.2.filter (fun s => s ≠ sid)))

/-- Payloads of the outbound events emitted by the server. -/
inductive Payload where
  | roomState (members : List RoomMember)
  | memberJoined (user : RoomMember)
  | memberLeft (user : RoomMember)
  | urlChanged (url : String) (timestamp : Int)
  | videoStateUpdated (isPlaying : Bool) (timestamp : Int)
  | videoStateFull (state : VideoState)
  | newMessage (user : RoomMember) (text : String) (timestamp : String)
deriving Repr, DecidableEq

/-- One outbound emission: event name, the concrete list of recipient
sockets it is delivered to, and its payload. -/
structure Emission where
  event : String
  recipients : List String
  payload : Payload
deriving Repr, DecidableEq

/-!
WHATWG URL model used by `convertToEmbedUrl`.  The server calls
`new URL(url)` and reads `hostname`, `searchParams.get('v')` and
`pathname`; the model below follows the URL standard's basic parser for
the components those reads depend on: input preprocessing (leading and
trailing C0-control/space stripping, removal of interior tabs and
newlines), scheme validation and lowercasing, slash-and-backslash
slurping before the authority of special schemes (`http`, `https`, `ws`,
`wss`, `ftp`, `file` — so `https:/host` and `https:host` still carry a
host), userinfo and port stripping with port validation, host
percent-decoding, forbidden-code-point checking and ASCII lowercasing
for special schemes (opaque hosts of other schemes are kept verbatim),
path splitting on slashes (and backslashes for special schemes) with
dot-segment removal and path percent-encoding, query/fragment
splitting, and byte-level `application/x-www-form-urlencoded` decoding
of query parameters (plus-as-space, percent-escapes decoded as UTF-8
with U+FFFD replacement).  Not modelled: IDNA/UTS46 mapping of
non-ASCII host labels (such hostnames are kept as decoded) and IPv4 /
IPv6 literal canonicalization (never a YouTube hostname either way).
-/

/-- Split a character list at the first character satisfying `p`: returns
the prefix before it and the remainder starting with it (remainder empty
when no character matches). -/
def breakAt (p : Char → Bool) : List Char → List Char × List Char
  | [] => ([], [])
  | c :: cs => if p c then ([], c :: cs) else ((breakAt p cs).1.cons c, (breakAt p cs).2)

/-- The part of an authority after its last at-sign (strips userinfo). -/
def afterLastAt (l : List Char) : List Char :=
  (l.reverse.takeWhile (fun c => c ≠ '@')).reverse

/-- Lowercase every character (ASCII case folding of hostnames and
schemes). -/
def toLowerList (l : List Char) : List Char :=
  l.map Char.toLower

/-- Split the remainder after the authority (or after the scheme colon for
opaque paths) into the raw path chunk and the query, dropping any
fragment. -/
def pathAndSearch (l : List Char) : List Char × List Char :=
  let r := (breakAt (fun c => c == '?' || c == '#') l).2
  let p := (breakAt (fun c => c == '?' || c == '#') l).1
  match r with
  | '?' :: r₂ => (p, (breakAt (fun c => c == '#') r₂).1)
  | _ => (p, [])

/-- First character of a URL scheme must be a letter. -/
def isSchemeStart (c : Char) : Bool := c.isAlpha

/-- Characters allowed in a URL scheme. -/
def isSchemeChar (c : Char) : Bool := c.isAlpha || c.isDigit || c == '+' || c == '-' || c == '.'

/-- A C0 control or space, stripped from both ends of the input. -/
def isC0OrSpace (c : Char) : Bool := c.toNat ≤ 0x20

/-- ASCII tab or newline, removed everywhere in the input. -/
def isTabOrNewline (c : Char) : Bool := c.toNat == 9 || c.toNat == 10 || c.toNat == 13

/-- Drop the longest suffix of characters satisfying `p`. -/
def stripTrail (p : Char → Bool) (l : List Char) : List Char :=
  (l.reverse.dropWhile p).reverse

/-- Input preprocessing of the URL parser: strip leading and trailing
C0-control/space characters, then remove every interior tab and
newline. -/
def preprocessURL (l : List Char) : List Char :=
  (stripTrail isC0OrSpace (l.dropWhile isC0OrSpace)).filter (fun c => !(isTabOrNewline c))

/-- Forward slash or backslash (special schemes treat both alike). -/
def isSlash (c : Char) : Bool := c == '/' || c == '\\'

/-- The special schemes of the URL standard. -/
def specialSchemes : List (List Char) :=
  ["http".data, "https".data, "ws".data, "wss".data, "ftp".data, "file".data]

/-- Numeric value of a hexadecimal digit, if it is one. -/
def hexVal (c : Char) : Option Nat :=
  if '0' ≤ c ∧ c ≤ '9' then some (c.toNat - 48)
  else if 'a' ≤ c ∧ c ≤ 'f' then some (c.toNat - 87)
  else if 'A' ≤ c ∧ c ≤ 'F' then some (c.toNat - 55)
  else none

/-- UTF-8 encoding of a code point. -/
def utf8Bytes (n : Nat) : List Nat :=
  if n ≤ 0x7F then [n]
  else if n ≤ 0x7FF then [0xC0 + n / 64, 0x80 + n % 64]
  else if n ≤ 0xFFFF then [0xE0 + n / 4096, 0x80 + n / 64 % 64, 0x80 + n % 64]
  else [0xF0 + n / 262144, 0x80 + n / 4096 % 64, 0x80 + n / 64 % 64, 0x80 + n % 64]

/-- Whether an optional byte is present and within bounds. -/
def inRange (lo hi : Nat) : Option Nat → Bool
  | some x => lo ≤ x && x ≤ hi
  | none => false

/-- Fuelled worker of the WHATWG UTF-8 decoder; every step consumes at
least one byte, so fuel equal to the input length never runs out. -/
def utf8DecodeAux : Nat → List Nat → List Char
  | _, [] => []
  | 0, _ => []
  | fuel + 1, b :: rest =>
    if b ≤ 0x7F then Char.ofNat b :: utf8DecodeAux fuel rest
    else if 0xC2 ≤ b && b ≤ 0xDF then
      if inRange 0x80 0xBF rest.head? then
        Char.ofNat ((b - 0xC0) * 64 + (rest.headD 0 - 0x80)) :: utf8DecodeAux fuel (rest.drop 1)
      else Char.ofNat 0xFFFD :: utf8DecodeAux fuel rest
    else if 0xE0 ≤ b && b ≤ 0xEF then
      if inRange (if b = 0xE0 then 0xA0 else 0x80) (if b = 0xED then 0x9F else 0xBF)
          rest.head? then
        if inRange 0x80 0xBF (rest.drop 1).head? then
          Char.ofNat ((b - 0xE0) * 4096 + (rest.headD 0 - 0x80) * 64 +
            ((rest.drop 1).headD 0 - 0x80)) :: utf8DecodeAux fuel (rest.drop 2)
        else Char.ofNat 0xFFFD :: utf8DecodeAux fuel (rest.drop 1)
      else Char.ofNat 0xFFFD :: utf8DecodeAux fuel rest
    else if 0xF0 ≤ b && b ≤ 0xF4 then
      if inRange (if b = 0xF0 then 0x90 else 0x80) (if b = 0xF4 then 0x8F else 0xBF)
          rest.head? then
        if inRange 0x80 0xBF (rest.drop 1).head? then
          if inRange 0x80 0xBF (rest.drop 2).head? then
            Char.ofNat ((b - 0xF0) * 262144 + (rest.headD 0 - 0x80) * 4096 +
              ((rest.drop 1).headD 0 - 0x80) * 64 + ((rest.drop 2).headD 0 - 0x80)) ::
              utf8DecodeAux fuel (rest.drop 3)
          else Char.ofNat 0xFFFD :: utf8DecodeAux fuel (rest.drop 2)
        else Char.ofNat 0xFFFD :: utf8DecodeAux fuel (rest.drop 1)
      else Char.ofNat 0xFFFD :: utf8DecodeAux fuel rest
    else Char.ofNat 0xFFFD :: utf8DecodeAux fuel rest

/-- The WHATWG UTF-8 decoder: well-formed sequences decode to their code
point (overlong forms, surrogates and out-of-range values excluded via
the boundary checks), each malformed byte run yields one U+FFFD and
decoding resumes at the offending byte. -/
def utf8Decode (l : List Nat) : List Char := utf8DecodeAux l.length l

/-- Percent-decode to bytes (hosts): `%hh` with two hex digits becomes
that byte, any other character contributes its UTF-8 bytes. -/
def pctBytes : List Char → List Nat
  | [] => []
  | '%' :: a :: b :: r =>
    match hexVal a, hexVal b with
    | some ha, some hb => (16 * ha + hb) :: pctBytes r
    | _, _ => utf8Bytes ('%'.toNat) ++ pctBytes (a :: b :: r)
  | c :: r => utf8Bytes c.toNat ++ pctBytes r

/-- `application/x-www-form-urlencoded` decoding to bytes: plus becomes
a space byte, otherwise as percent-decoding. -/
def formBytes : List Char → List Nat
  | [] => []
  | '+' :: r => 0x20 :: formBytes r
  | '%' :: a :: b :: r =>
    match hexVal a, hexVal b with
    | some ha, some hb => (16 * ha + hb) :: formBytes r
    | _, _ => utf8Bytes ('%'.toNat) ++ formBytes (a :: b :: r)
  | c :: r => utf8Bytes c.toNat ++ formBytes r

/-- Form-urlencoded decoding used by `URLSearchParams`: decode to bytes,
then UTF-8 decode. -/
def formDecode (l : List Char) : List Char := utf8Decode (formBytes l)

/-- Uppercase hexadecimal digit of `n mod 16`. -/
def hexUpper (n : Nat) : Char :=
  match n % 16 with
  | 0 => '0' | 1 => '1' | 2 => '2' | 3 => '3' | 4 => '4' | 5 => '5' | 6 => '6'
  | 7 => '7' | 8 => '8' | 9 => '9' | 10 => 'A' | 11 => 'B' | 12 => 'C' | 13 => 'D'
  | 14 => 'E' | _ => 'F'

/-- Percent-encode one path character with the path percent-encode set
(C0 controls, space, DEL and non-ASCII, double quote, angle brackets,
number sign, question mark, grave accent and curly brackets); other
characters pass through. -/
def pathPercentEncodeChar (c : Char) : List Char :=
  if c.toNat ≤ 0x20 || c.toNat ≥ 0x7F || c == Char.ofNat 34 || c == '<' || c == '>' ||
      c == '#' || c == '?' || c == Char.ofNat 96 || c == Char.ofNat 123 || c == Char.ofNat 125 then
    ((utf8Bytes c.toNat).map (fun b => ['%', hexUpper (b / 16), hexUpper b])).flatten
  else [c]

/-- Split a character list on separator characters, keeping empty
pieces. -/
def splitOnSep (p : Char → Bool) : List Char → List (List Char)
  | [] => [[]]
  | c :: r =>
    if p c then [] :: splitOnSep p r
    else
      match splitOnSep p r with
      | [] => [[c]]
      | s :: ss => (c :: s) :: ss

/-- Percent-encode every character of a path segment. -/
def encSeg (s : List Char) : List Char := (s.map pathPercentEncodeChar).flatten

/-- A single-dot path segment (`.` or a percent-encoded dot). -/
def isSingleDotSeg (s : List Char) : Bool :=
  s == ".".data || toLowerList s == "%2e".data

/-- A double-dot path segment (`..` or any percent-encoded spelling). -/
def isDoubleDotSeg (s : List Char) : Bool :=
  s == "..".data || toLowerList s == ".%2e".data || toLowerList s == "%2e.".data ||
    toLowerList s == "%2e%2e".data

/-- Dot-segment removal of the path state: double dots pop the previous
segment, single dots vanish, and a trailing dot segment leaves a
trailing empty segment (a trailing slash). -/
def normalizeSegs : List (List Char) → List (List Char) → List (List Char)
  | acc, [] => acc
  | acc, s :: rest =>
    if isDoubleDotSeg s then
      if rest.isEmpty then acc.dropLast ++ [[]] else normalizeSegs acc.dropLast rest
    else if isSingleDotSeg s then
      if rest.isEmpty then acc ++ [[]] else normalizeSegs acc rest
    else normalizeSegs (acc ++ [s]) rest

/-- Serialize the pathname of an authority URL from the raw path chunk
(the characters between the authority and the query/fragment): drop the
leading separator, split on slashes (and backslashes for special
schemes), percent-encode each segment, remove dot segments, and join
with slashes behind a leading slash. -/
def buildPath (special : Bool) (chunk : List Char) : List Char :=
  match chunk with
  | [] => ['/']
  | c :: r =>
    let body := if c == '/' || (special && c == '\\') then r else c :: r
    let segs := (splitOnSep (fun d => d == '/' || (special && d == '\\')) body).map encSeg
    '/' :: List.intercalate ['/'] (normalizeSegs [] segs)

/-- A forbidden host code point (opaque hosts). -/
def forbiddenHostChar (c : Char) : Bool :=
  c.toNat == 0 || c.toNat == 9 || c.toNat == 10 || c.toNat == 13 || c == ' ' || c == '#' ||
  c == '/' || c == ':' || c == '<' || c == '>' || c == '?' || c == '@' || c == '[' ||
  c == '\\' || c == ']' || c == '^' || c == '|'

/-- A forbidden domain code point (special-scheme hosts, checked after
percent-decoding). -/
def forbiddenDomainChar (c : Char) : Bool :=
  c.toNat < 0x20 || c.toNat == 0x7F || c == '%' || forbiddenHostChar c

/-- Validity of the part after the host: empty, or a colon followed by
decimal digits whose value fits in sixteen bits (an empty port is
allowed). -/
def portOk : List Char → Bool
  | [] => true
  | c :: ds =>
    c == ':' && ds.all (fun d => d.isDigit) &&
      (ds.isEmpty || ds.foldl (fun a d => a * 10 + (d.toNat - 48)) 0 ≤ 65535)

/-- Host parsing of one authority: strip userinfo (after the last
at-sign), handle a bracketed IPv6-style host verbatim, validate the
port, and for special schemes percent-decode the host, reject forbidden
domain code points and empty hosts (the empty host is legal only for
`file`), and lowercase; opaque hosts of other schemes are checked for
forbidden host code points and kept verbatim.  `none` models the
constructor throwing. -/
def parseHostPort (special allowEmpty : Bool) (auth : List Char) : Option (List Char) :=
  let hp := afterLastAt auth
  match hp with
  | '[' :: rest =>
    match breakAt (fun c => c == ']') rest with
    | (inner, ']' :: after) =>
      if portOk after then some ('[' :: (inner ++ [']'])) else none
    | _ => none
  | _ =>
    let host := (breakAt (fun c => c == ':') hp).1
    if ¬ portOk (breakAt (fun c => c == ':') hp).2 then none
    else if special then
      if host.isEmpty then (if allowEmpty then some [] else none)
      else
        let dec := utf8Decode (pctBytes host)
        if dec.any forbiddenDomainChar then none else some (toLowerList dec)
    else
      if host.any forbiddenHostChar then none else some host

/-- The components of a parsed URL that `convertToEmbedUrl` reads. -/
structure URLParts where
  hostname : String
  pathname : String
  search : String
deriving Repr, DecidableEq

/-- Model of `new URL(s)` restricted to the components the server reads;
`none` models the constructor throwing.  Special schemes slurp any run
of slashes and backslashes before the authority; other schemes require
a literal `//` for an authority and otherwise carry an opaque path with
an empty hostname. -/
def parseURL (s : String) : Option URLParts :=
  let cs := preprocessURL s.data
  match breakAt (fun c => c == ':') cs with
  | (scheme, ':' :: afterColon) =>
    if scheme.isEmpty then none
    else if ¬ (isSchemeStart (scheme.headD 'a') && scheme.all isSchemeChar) then none
    else
      let schemeLower := toLowerList scheme
      if specialSchemes.contains schemeLower then
        let rest := afterColon.dropWhile isSlash
        let auth := (breakAt (fun c => isSlash c || c == '?' || c == '#') rest).1
        let tl := (breakAt (fun c => isSlash c || c == '?' || c == '#') rest).2
        match parseHostPort true (schemeLower == "file".data) auth with
        | none => none
        | some host =>
          let pq := pathAndSearch tl
          some ⟨String.mk host, String.mk (buildPath true pq.1), String.mk pq.2⟩
      else
        match afterColon with
        | '/' :: '/' :: rest =>
          let auth := (breakAt (fun c => c == '/' || c == '?' || c == '#') rest).1
          let tl := (breakAt (fun c => c == '/' || c == '?' || c == '#') rest).2
          match parseHostPort false false auth with
          | none => none
          | some host =>
            let pq := pathAndSearch tl
            some ⟨String.mk host, String.mk (buildPath false pq.1), String.mk pq.2⟩
        | _ =>
          let pq := pathAndSearch afterColon
          some ⟨"", String.mk pq.1, String.mk pq.2⟩
  | _ => none

/-- Split a query string on ampersands. -/
def splitOnAmp : List Char → List (List Char)
  | [] => [[]]
  | '&' :: r => [] :: splitOnAmp r
  | c :: r =>
    match splitOnAmp r with
    | [] => [[c]]
    | p :: ps => (c :: p) :: ps

/-- Find the first query pair whose decoded key matches, returning its
decoded value (empty when the pair has no equals sign). -/
def paramLookup (key : List Char) : List (List Char) → Option (List Char)
  | [] => none
  | p :: ps =>
    let kv := breakAt (fun c => c == '=') p
    if formDecode kv.1 = key then some (formDecode (kv.2.drop 1)) else paramLookup key ps

/-- Model of `urlObj.searchParams.get(key)` on the raw query string.
The URL serializer percent-encodes some query characters, but the
form-urlencoded decoding applied here inverts exactly that encoding, so
reading the raw query yields the same value the real pipeline does. -/
def searchParamGet (search : String) (key : String) : Option String :=
  (paramLookup key.data ((splitOnAmp search.data).filter (fun p => ¬ p.isEmpty))).map String.mk

/-- The `youtube.com`/`www.youtube.com` branch of `convertToEmbedUrl`
(lines 255-260): the truthy `v` query parameter, if any.  The JS
truthiness test `if (videoId)` makes an empty `v` value fall through. -/
def extractVideoId (u : URLParts) : Option String :=
  if u.hostname = "www.youtube.com" || u.hostname = "youtube.com" then
    match searchParamGet u.search ("v") with
    | some v => if v.isEmpty then none else some v
    | none => none
  else none

/-- `convertToEmbedUrl` from `src/useSocket.ts` (lines 250-274): rewrite
`youtube.com/watch?v=` and `youtu.be/` URLs to the embed form, return the
input unchanged otherwise (including when URL parsing fails). -/
def convertToEmbedUrl (url : String) : String :=
  match parseURL url with
  | none => url
  | some u =>
    match extractVideoId u with
    | some v => "https://www.youtube.com/embed/" ++ v
    | none =>
      if u.hostname = "youtu.be" then
        "https://www.youtube.com/embed/" ++ (u.pathname.drop 1)
      else url

/-- Civil date (year, month, day) of a day count since 1970-01-01
(proleptic Gregorian, the algorithm used by JS date conversion). -/
def civilFromDays (z₀ : Nat) : Nat × Nat × Nat :=
  let z := z₀ + 719468
  let era := z / 146097
  let doe := z % 146097
  let yoe := (doe - doe / 1460 + doe / 36524 - doe / 146096) / 365
  let y := yoe + era * 400
  let doy := doe - (365 * yoe + yoe / 4 - yoe / 100)
  let mp := (5 * doy + 2) / 153
  let d := doy - (153 * mp + 2) / 5 + 1
  let m := if mp < 10 then mp + 3 else mp - 9
  (if m ≤ 2 then y + 1 else y, m, d)

/-- The decimal digit character for `n mod 10`. -/
def digitChar (n : Nat) : Char :=
  match n % 10 with
  | 0 => '0' | 1 => '1' | 2 => '2' | 3 => '3' | 4 => '4'
  | 5 => '5' | 6 => '6' | 7 => '7' | 8 => '8' | _ => '9'

/-- Two right-aligned decimal digits of `n`. -/
def pad2 (n : Nat) : List Char := [digitChar (n / 10), digitChar n]

/-- Three right-aligned decimal digits of `n`. -/
def pad3 (n : Nat) : List Char := [digitChar (n / 100), digitChar (n / 10), digitChar n]

/-- Four right-aligned decimal digits of `n`. -/
def pad4 (n : Nat) : List Char := [digitChar (n / 1000), digitChar (n / 100), digitChar (n / 10), digitChar n]

/-- Model of `new Date(ms).toISOString()` for a non-negative epoch
millisecond count whose year is at most 9999 (JS switches to an expanded
year format outside that range). -/
def jsToISOString (ms : Nat) : String :=
  let sec := ms / 1000
  let mins := sec / 60
  let hours := mins / 60
  let ymd := civilFromDays (hours / 24)
  String.mk (pad4 ymd.1 ++ ['-'] ++ pad2 ymd.2.1 ++ ['-'] ++ pad2 ymd.2.2 ++ ['T'] ++
    pad2 (hours % 24) ++ [':'] ++ pad2 (mins % 60) ++ [':'] ++ pad2 (sec % 60) ++
    ['.'] ++ pad3 (ms % 1000) ++ ['Z'])

/-- Checker for the `YYYY-MM-DDTHH:MM:SS.mmmZ` ISO-8601 timestamp shape. -/
def isISO8601 (s : String) : Bool :=
  match s.data with
  | [y₁, y₂, y₃, y₄, a₁, o₁, o₂, a₂, d₁, d₂, t, h₁, h₂, b₁, i₁, i₂, b₂, s₁, s₂, dot, f₁, f₂, f₃, z] =>
    y₁.isDigit && y₂.isDigit && y₃.isDigit && y₄.isDigit && a₁ == '-' &&
    o₁.isDigit && o₂.isDigit && a₂ == '-' && d₁.isDigit && d₂.isDigit &&
    t == 'T' && h₁.isDigit && h₂.isDigit && b₁ == ':' && i₁.isDigit && i₂.isDigit &&
    b₂ == ':' && s₁.isDigit && s₂.isDigit && dot == '.' &&
    f₁.isDigit && f₂.isDigit && f₃.isDigit && z == 'Z'
  | _ => false

/-!
The seven inbound-event handlers registered in `io.on('connection', ...)`
(`src/useSocket.ts`, lines 113-237), translated statement by statement.
Each handler takes the server state, the id of the socket the event
arrived on, and the event payload, and returns the new state together
with the list of emissions, in emission order.
-/

/-- The `join-room` handler (lines 116-137): `socket.join`, create the
room state if absent, `members.set(user.id, user)`, send the member
snapshot to the joiner, broadcast `member-joined` to the rest. -/
def handleJoinRoom (st : ServerState) (sid rid : String) (user : RoomMember) : ServerState × List Emission :=
  let adapter := adapterJoin sid rid st.adapter
  let rooms₀ := if (mget rid st.rooms).isSome then st.rooms else mset rid ⟨[], none⟩ st.rooms
  let room := (mget rid rooms₀).getD ⟨[], none⟩
  let room₂ : RoomState := { room with members := mset user.id user room.members }
  let members := room₂.members.map Prod.snd
  (⟨mset rid room₂ rooms₀, adapter⟩,
   [⟨"room-state", [sid], .roomState members⟩,
    ⟨"member-joined", (adapterMembers rid adapter).filter (fun s => s ≠ sid), .memberJoined user⟩])

/-- The `leave-room` handler (lines 139-161): `socket.leave`; if the room
state exists, `members.delete(user.id)`, broadcast `member-left` to the
rest, then delete the room if empty or broadcast the updated member
snapshot to the whole room. -/
def handleLeaveRoom (st : ServerState) (sid rid : String) (user : RoomMember) : ServerState × List Emission :=
  let adapter := adapterLeaveRoom sid rid st.adapter
  match mget rid st.rooms with
  | none => (⟨st.rooms, adapter⟩, [])
  | some room =>
    let members := mdel user.id room.members
    let em₁ : Emission := ⟨"member-left", (adapterMembers rid adapter).filter (fun s => s ≠ sid), .memberLeft user⟩
    if members.isEmpty then
      (⟨mdel rid st.rooms, adapter⟩, [em₁])
    else
      (⟨mset rid { room with members := members } st.rooms, adapter⟩,
       [em₁, ⟨"room-state", adapterMembers rid adapter, .roomState (members.map Prod.snd)⟩])

/-- The `sync-url` handler (lines 163-182): convert the URL to embed
form, overwrite the room's video state when the room exists (playing
defaults to true), and broadcast `url-changed` to the rest of the room
unconditionally.  The `timestamp = 0` destructuring default is modelled
by an optional payload field. -/
def handleSyncUrl (st : ServerState) (sid rid url : String) (mts : Option Int) : ServerState × List Emission :=
  let ts := mts.getD 0
  let embedUrl := convertToEmbedUrl url
  let rooms :=
    match mget rid st.rooms with
    | some room => mset rid { room with videoState := some ⟨embedUrl, ts, true⟩ } st.rooms
    | none => st.rooms
  (⟨rooms, st.adapter⟩,
   [⟨"url-changed", (adapterMembers rid st.adapter).filter (fun s => s ≠ sid), .urlChanged embedUrl ts⟩])

/-- The `video-state-change` handler (lines 185-196): when the room
exists and already has a video state, update its `isPlaying` and
`timestamp` fields; broadcast `video-state-updated` to the rest of the
room unconditionally. -/
def handleVideoStateChange (st : ServerState) (sid rid : String) (playing : Bool) (ts : Int) : ServerState × List Emission :=
  let rooms :=
    match mget rid st.rooms with
    | some room =>
      match room.videoState with
      | some vs => mset rid { room with videoState := some { vs with isPlaying := playing, timestamp := ts } } st.rooms
      | none => st.rooms
    | none => st.rooms
  (⟨rooms, st.adapter⟩,
   [⟨"video-state-updated", (adapterMembers rid st.adapter).filter (fun s => s ≠ sid), .videoStateUpdated playing ts⟩])

/-- The `request-video-state` handler (lines 198-203): reply privately
with the room's video state when there is one, otherwise do nothing. -/
def handleRequestVideoState (st : ServerState) (sid rid : String) : ServerState × List Emission :=
  match mget rid st.rooms with
  | some room =>
    match room.videoState with
    | some vs => (st, [⟨"video-state-updated", [sid], .videoStateFull vs⟩])
    | none => (st, [])
  | none => (st, [])

/-- The `chat-message` handler (lines 205-211): broadcast `new-message`
with the reported user, the text, and a freshly stamped ISO timestamp to
the whole room, sender included (`io.to`, not `socket.to`).  `now` is the
server clock in epoch milliseconds at handling time. -/
def handleChatMessage (st : ServerState) (sid rid msg : String) (user : RoomMember) (now : Nat) : ServerState × List Emission :=
  let _ := sid
  (st, [⟨"new-message", adapterMembers rid st.adapter, .newMessage user msg (jsToISOString now)⟩])

/-- The room-directory traversal of the `disconnect` handler (lines
215-233): for each room, if a member is keyed by the disconnecting
socket's id, remove it, broadcast `member-left` to the remaining sockets,
then broadcast the updated snapshot when members remain or drop the room
when empty.  `adapter` is the adapter state after the automatic removal
of the socket from its rooms, which happens before the handler runs. -/
def disconnectRooms (sid : String) (adapter : List (String × List String)) :
    List (String × RoomState) → List (String × RoomState) × List Emission
  | [] => ([], [])
  | (rid, room) :: rest =>
    let tail := disconnectRooms sid adapter rest
    match mget sid room.members with
    | none => ((rid, room) :: tail.1, tail.2)
    | some user =>
      let members := mdel sid room.members
      let em₁ : Emission := ⟨"member-left", (adapterMembers rid adapter).filter (fun s => s ≠ sid), .memberLeft user⟩
      if members.isEmpty then
        (tail.1, em₁ :: tail.2)
      else
        ((rid, { room with members := members }) :: tail.1,
         em₁ :: ⟨"room-state", adapterMembers rid adapter, .roomState (members.map Prod.snd)⟩ :: tail.2)

/-- The `disconnect` handler (lines 213-236): socket.io removes the
socket from all adapter rooms, then the handler sweeps the room
directory. -/
def handleDisconnect (st : ServerState) (sid : String) : ServerState × List Emission :=
  let adapter := adapterLeaveAll sid st.adapter
  let swept := disconnectRooms sid adapter st.rooms
  (⟨swept.1, adapter⟩, swept.2)

/-- The closed set of inbound events the dispatcher handles.  Each
carries the id of the socket it arrives on; `chatMessage` also carries
the server clock at handling time, consumed by `new Date()`. -/
inductive ClientEvent where
  | joinRoom (sid rid : String) (user : RoomMember)
  | leaveRoom (sid rid : String) (user : RoomMember)
  | syncUrl (sid rid url : String) (timestamp : Option Int)
  | videoStateChange (sid rid : String) (isPlaying : Bool) (timestamp : Int)
  | requestVideoState (sid rid : String)
  | chatMessage (sid rid message : String) (user : RoomMember) (now : Nat)
  | disconnect (sid : String)
deriving Repr, DecidableEq

/-- One dispatch cycle: route an inbound event to its handler. -/
def step (st : ServerState) : ClientEvent → ServerState × List Emission
  | .joinRoom sid rid user => handleJoinRoom st sid rid user
  | .leaveRoom sid rid user => handleLeaveRoom st sid rid user
  | .syncUrl sid rid url ts => handleSyncUrl st sid rid url ts
  | .videoStateChange sid rid p ts => handleVideoStateChange st sid rid p ts
  | .requestVideoState sid rid => handleRequestVideoState st sid rid
  | .chatMessage sid rid msg user now => handleChatMessage st sid rid msg user now
  | .disconnect sid => handleDisconnect st sid

/-- The socket id an inbound event arrives on (for leave and disconnect,
the departing connection). -/
def senderOf : ClientEvent → String
  | .joinRoom sid _ _ => sid
  | .leaveRoom sid _ _ => sid
  | .syncUrl sid _ _ _ => sid
  | .videoStateChange sid _ _ _ => sid
  | .requestVideoState sid _ => sid
  | .chatMessage sid _ _ _ _ => sid
  | .disconnect sid => sid

/-- State at process start: no rooms, no adapter entries. -/
def initialState : ServerState := ⟨[], []⟩

/-- Run a trace of inbound events from process start, collecting the
final state and every emission in order. -/
def runTrace (evs : List ClientEvent) : ServerState × List Emission :=
  evs.foldl (fun acc e => ((step acc.1 e).1, acc.2 ++ (step acc.1 e).2)) (initialState, [])

/-! Basic lemmas about the JS `Map` model. -/

theorem mset_ne_nil {α : Type} (k : String) (v : α) (l : List (String × α)) :
    mset k v l ≠ [] := by
  cases l with
  | nil => simp [mset]
  | cons e r =>
    obtain ⟨k₂, v₂⟩ := e
    simp only [mset]
    split <;> simp

theorem mget_mset_self {α : Type} (k : String) (v : α) (l : List (String × α)) :
    mget k (mset k v l) = some v := by
  induction l with
  | nil => simp [mset, mget]
  | cons e r ih =>
    obtain ⟨k₂, v₂⟩ := e
    by_cases h : k₂ = k <;> simp [mset, mget, h, ih]

theorem mget_mset_ne {α : Type} (k k₂ : String) (v : α) (l : List (String × α))
    (h : k₂ ≠ k) : mget k₂ (mset k v l) = mget k₂ l := by
  induction l with
  | nil => simp [mset, mget, Ne.symm h]
  | cons e r ih =>
    obtain ⟨k₃, v₃⟩ := e
    by_cases h₃ : k₃ = k
    · subst h₃
      simp [mset, mget, Ne.symm h]
    · simp only [mset, if_neg h₃]
      by_cases h₄ : k₃ = k₂ <;> simp [mget, h₄, ih]

theorem mem_mset {α : Type} (k : String) (v : α) (l : List (String × α))
    (e : String × α) (h : e ∈ mset k v l) : e = (k, v) ∨ e ∈ l := by
  induction l with
  | nil => simpa [mset] using h
  | cons e₂ r ih =>
    obtain ⟨k₂, v₂⟩ := e₂
    by_cases h₂ : k₂ = k
    · subst h₂
      rcases (by simpa [mset] using h : e = (k₂, v) ∨ e ∈ r) with h₃ | h₃
      · exact Or.inl h₃
      · exact Or.inr (List.mem_cons_of_mem _ h₃)
    · rcases (by simpa [mset, h₂] using h : e = (k₂, v₂) ∨ e ∈ mset k v r) with h₃ | h₃
      · exact Or.inr (by simp [h₃])
      · rcases ih h₃ with h₄ | h₄
        · exact Or.inl h₄
        · exact Or.inr (List.mem_cons_of_mem _ h₄)

theorem mset_mset {α : Type} (k : String) (v w : α) (l : List (String × α)) :
    mset k v (mset k w l) = mset k v l := by
  induction l with
  | nil => simp [mset]
  | cons e r ih =>
    obtain ⟨k₂, v₂⟩ := e
    by_cases h : k₂ = k <;> simp [mset, h, ih]

theorem mget_mem {α : Type} (k : String) (v : α) (l : List (String × α))
    (h : mget k l = some v) : (k, v) ∈ l := by
  induction l with
  | nil => simp [mget] at h
  | cons e r ih =>
    obtain ⟨k₂, v₂⟩ := e
    by_cases h₂ : k₂ = k
    · subst h₂
      simp only [mget, if_pos rfl, if_true, Option.some.injEq] at h
      subst h
      simp
    · simp only [mget, if_neg h₂] at h
      exact List.mem_cons_of_mem _ (ih h)

theorem mdel_of_absent {α : Type} (k : String) (l : List (String × α))
    (h : mget k l = none) : mdel k l = l := by
  induction l with
  | nil => simp [mdel]
  | cons e r ih =>
    obtain ⟨k₂, v₂⟩ := e
    by_cases h₂ : k₂ = k
    · simp [mget, h₂] at h
    · simp only [mget, if_neg h₂] at h
      simp [mdel, h₂, ih h]

theorem mem_snd_mset (k : String) (v : RoomMember) (l : List (String × RoomMember)) :
    v ∈ (mset k v l).map Prod.snd := by
  induction l with
  | nil => simp [mset]
  | cons e r ih =>
    obtain ⟨k₂, v₂⟩ := e
    by_cases h : k₂ = k <;> simp [mset, h, ih]

theorem not_mem_filter_ne (sid : String) (l : List String) :
    sid ∉ l.filter (fun s => s ≠ sid) := by
  intro h
  have := (List.mem_filter.mp h).2
  simp at this

/-- C5: for every join-room event, the private room-state snapshot sent
to the joining connection (the first emission, targeted at the joining
socket only) is the member list of the room state stored after the event
— i.e. it is computed after the member is inserted — and therefore
always contains the joining member itself. -/
theorem C5_join_snapshot_includes_joiner (st : ServerState) (sid rid : String) (user : RoomMember) :
    ∃ room, mget rid (handleJoinRoom st sid rid user).1.rooms = some room ∧
      (handleJoinRoom st sid rid user).2.head? =
        some ⟨"room-state", [sid], Payload.roomState (room.members.map Prod.snd)⟩ ∧
      user ∈ room.members.map Prod.snd := by
  refine ⟨_, mget_mset_self rid _ _, rfl, mem_snd_mset user.id user _⟩

/-- C3 counterexample: the room exists (socket `s1` joined as member
`u1`) but has no playback state; after a video-state-change event the
room still has no playback state — none is created, contradicting the
claimed creation with an empty url. -/
theorem C3_counterexample :
    (mget ("r") (handleVideoStateChange ⟨[(("r"), ⟨[(("u1"), ⟨"u1", "A", none⟩)], none⟩)],
        [(("r"), ["s1"])]⟩ ("s1") ("r") true 42).1.rooms).map RoomState.videoState =
      some none := by
  decide

/-- C3 amended: a video-state-change event always instructs exactly one
video-state-updated broadcast to the rest of the room carrying the
reported flag and position; when the room has a PlaybackState its
isPlaying and position are updated in place; when the room exists
without one, or does not exist, the state is left unchanged — no
PlaybackState is created. -/
theorem C3_video_state_change (st : ServerState) (sid rid : String) (playing : Bool) (ts : Int) :
    (handleVideoStateChange st sid rid playing ts).2 =
      [⟨"video-state-updated", (adapterMembers rid st.adapter).filter (fun s => s ≠ sid),
        Payload.videoStateUpdated playing ts⟩] ∧
    (∀ room vs, mget rid st.rooms = some room → room.videoState = some vs →
      mget rid (handleVideoStateChange st sid rid playing ts).1.rooms =
        some { room with videoState := some { vs with isPlaying := playing, timestamp := ts } }) ∧
    (∀ room, mget rid st.rooms = some room → room.videoState = none →
      (handleVideoStateChange st sid rid playing ts).1 = st) ∧
    (mget rid st.rooms = none → (handleVideoStateChange st sid rid playing ts).1 = st) := by
  refine ⟨rfl, ?_, ?_, ?_⟩
  · intro room vs h₁ h₂
    simp only [handleVideoStateChange, h₁, h₂]
    exact mget_mset_self rid _ _
  · intro room h₁ h₂
    simp only [handleVideoStateChange, h₁, h₂]
  · intro h₁
    simp only [handleVideoStateChange, h₁]

/-- C3 witness: a concrete room with an existing PlaybackState has its
flag and position updated and the broadcast delivered to the other
socket. -/
theorem C3_video_state_change_witness :
    (handleVideoStateChange ⟨[(("r"), ⟨[(("u1"), ⟨"u1", "A", none⟩)], some ⟨"u", 0, false⟩⟩)],
        [(("r"), ["s1", "s2"])]⟩ ("s1") ("r") true 42).2 =
      [⟨"video-state-updated", ["s2"], Payload.videoStateUpdated true 42⟩] ∧
    mget ("r") (handleVideoStateChange ⟨[(("r"), ⟨[(("u1"), ⟨"u1", "A", none⟩)], some ⟨"u", 0, false⟩⟩)],
        [(("r"), ["s1", "s2"])]⟩ ("s1") ("r") true 42).1.rooms =
      some ⟨[(("u1"), ⟨"u1", "A", none⟩)], some ⟨"u", 42, true⟩⟩ := by
  have h := C3_video_state_change ⟨[(("r"), ⟨[(("u1"), ⟨"u1", "A", none⟩)], some ⟨"u", 0, false⟩⟩)],
    [(("r"), ["s1", "s2"])]⟩ ("s1") ("r") true 42
  refine ⟨by decide, ?_⟩
  have h₂ := h.2.1 ⟨[(("u1"), ⟨"u1", "A", none⟩)], some ⟨"u", 0, false⟩⟩ ⟨"u", 0, false⟩ (by decide) (by decide)
  exact h₂

/-- C4 counterexample: room `r` exists with sole member `u1` (socket
`s1`); a leave-room event from socket `s2` naming member `u2`, who is
not in the room, still produces a member-left broadcast and a room-state
snapshot broadcast delivered to `s1` — it is not a complete no-op. -/
theorem C4_counterexample :
    (handleLeaveRoom ⟨[(("r"), ⟨[(("u1"), ⟨"u1", "A", none⟩)], none⟩)], [(("r"), ["s1"])]⟩
        ("s2") ("r") ⟨"u2", "B", none⟩).2 =
      [⟨"member-left", ["s1"], Payload.memberLeft ⟨"u2", "B", none⟩⟩,
       ⟨"room-state", ["s1"], Payload.roomState [⟨"u1", "A", none⟩]⟩] := by
  decide

/-- C4 amended: a leave-room event naming a room with no state is a
complete no-op apart from the transport-level `socket.leave` (no
membership change, no broadcasts, no error).  A leave-room event naming
an existing room and a member id absent from it leaves the membership
unchanged and surfaces no error, but is not silent: it still broadcasts
member-left to the rest of the room and, the room being non-empty, a
full room-state snapshot. -/
theorem C4_leave_nonmember (st : ServerState) (sid rid : String) (user : RoomMember) :
    (mget rid st.rooms = none →
      (handleLeaveRoom st sid rid user).1 = ⟨st.rooms, adapterLeaveRoom sid rid st.adapter⟩ ∧
      (handleLeaveRoom st sid rid user).2 = []) ∧
    (∀ room, mget rid st.rooms = some room → mget user.id room.members = none →
      room.members ≠ [] →
      mget rid (handleLeaveRoom st sid rid user).1.rooms = some room ∧
      (handleLeaveRoom st sid rid user).2 =
        [⟨"member-left", (adapterMembers rid (adapterLeaveRoom sid rid st.adapter)).filter
            (fun s => s ≠ sid), Payload.memberLeft user⟩,
         ⟨"room-state", adapterMembers rid (adapterLeaveRoom sid rid st.adapter),
          Payload.roomState (room.members.map Prod.snd)⟩]) := by
  constructor
  · intro h
    simp [handleLeaveRoom, h]
  · intro room h₁ h₂ h₃
    have hd : mdel user.id room.members = room.members := mdel_of_absent _ _ h₂
    have he : room.members.isEmpty = false := by
      simpa using h₃
    simp only [handleLeaveRoom, h₁, hd, he, Bool.false_eq_true, if_false]
    constructor
    · exact mget_mset_self rid _ _
    · trivial

/-- C4 witness: instantiating the amended claim at a concrete state: a
missing room gives no emissions, and a non-member leave against room `r`
with member `u1` keeps the membership and emits the two broadcasts. -/
theorem C4_leave_nonmember_witness :
    ((handleLeaveRoom ⟨[], []⟩ ("s2") ("q") ⟨"u2", "B", none⟩).2 = []) ∧
    mget ("r") (handleLeaveRoom ⟨[(("r"), ⟨[(("u1"), ⟨"u1", "A", none⟩)], none⟩)], [(("r"), ["s1"])]⟩
        ("s2") ("r") ⟨"u2", "B", none⟩).1.rooms = some ⟨[(("u1"), ⟨"u1", "A", none⟩)], none⟩ := by
  constructor
  · exact ((C4_leave_nonmember ⟨[], []⟩ ("s2") ("q") ⟨"u2", "B", none⟩).1 (by decide)).2
  · exact ((C4_leave_nonmember ⟨[(("r"), ⟨[(("u1"), ⟨"u1", "A", none⟩)], none⟩)], [(("r"), ["s1"])]⟩
      ("s2") ("r") ⟨"u2", "B", none⟩).2 ⟨[(("u1"), ⟨"u1", "A", none⟩)], none⟩
      (by decide) (by decide) (by decide)).1

theorem disconnectRooms_member_left (sid : String) (a : List (String × List String))
    (l : List (String × RoomState)) :
    ∀ e ∈ (disconnectRooms sid a l).2, e.event = "member-left" → sid ∉ e.recipients := by
  induction l with
  | nil => simp [disconnectRooms]
  | cons hd tl ih =>
    obtain ⟨rid, room⟩ := hd
    intro e he hev
    simp only [disconnectRooms] at he
    rcases hm : mget sid room.members with _ | user
    · rw [hm] at he
      exact ih e he hev
    · rw [hm] at he
      by_cases hemp : (mdel sid room.members).isEmpty
      · simp only [hemp, if_true] at he
        rcases List.mem_cons.mp he with h₂ | h₂
        · subst h₂
          exact not_mem_filter_ne sid _
        · exact ih e h₂ hev
      · simp only [hemp, if_false] at he
        rcases List.mem_cons.mp he with h₂ | h₂
        · subst h₂
          exact not_mem_filter_ne sid _
        · rcases List.mem_cons.mp h₂ with h₃ | h₃
          · subst h₃
            simp at hev
          · exact ih e h₃ hev

/-- C8: a member-left emission produced by any inbound event is never
delivered to the socket the event arrived on — in particular, for
leave-room and disconnect events, never to the departing connection
itself.  This holds at every state, hence along every reachable
execution. -/
theorem C8_member_left_excludes_departing (st : ServerState) (ev : ClientEvent) :
    ∀ e ∈ (step st ev).2, e.event = "member-left" → senderOf ev ∉ e.recipients := by
  cases ev with
  | joinRoom sid rid user =>
    intro e he hev
    simp only [step, handleJoinRoom, List.mem_cons, List.not_mem_nil, or_false] at he
    rcases he with h | h
    · subst h; simp at hev
    · subst h; simp at hev
  | leaveRoom sid rid user =>
    intro e he hev
    simp only [step, handleLeaveRoom] at he
    rcases hm : mget rid st.rooms with _ | room
    · rw [hm] at he
      simp at he
    · rw [hm] at he
      by_cases hemp : (mdel user.id room.members).isEmpty
      · simp only [hemp, if_true, List.mem_singleton] at he
        subst he
        exact not_mem_filter_ne sid _
      · simp only [hemp, Bool.false_eq_true, if_false, List.mem_cons, List.not_mem_nil,
          or_false] at he
        rcases he with h | h
        · subst h
          exact not_mem_filter_ne sid _
        · subst h; simp at hev
  | syncUrl sid rid url ts =>
    intro e he hev
    simp only [step, handleSyncUrl, List.mem_singleton] at he
    subst he
    simp at hev
  | videoStateChange sid rid p ts =>
    intro e he hev
    simp only [step, handleVideoStateChange, List.mem_singleton] at he
    subst he
    simp at hev
  | requestVideoState sid rid =>
    intro e he hev
    rcases hm : mget rid st.rooms with _ | room
    · simp [step, handleRequestVideoState, hm] at he
    · rcases hv : room.videoState with _ | vs
      · simp [step, handleRequestVideoState, hm, hv] at he
      · simp only [step, handleRequestVideoState, hm, hv, List.mem_singleton] at he
        subst he
        simp at hev
  | chatMessage sid rid msg user now =>
    intro e he hev
    simp only [step, handleChatMessage, List.mem_singleton] at he
    subst he
    simp at hev
  | disconnect sid =>
    exact disconnectRooms_member_left sid _ _

/-- Concrete two-socket room state used to witness C8. -/
def c8state : ServerState :=
  ⟨[(("r"), ⟨[(("u1"), ⟨"u1", "A", none⟩), (("u2"), ⟨"u2", "B", none⟩)], none⟩)],
   [(("r"), ["s1", "s2"])]⟩

/-- The member-left emission produced by the C8 witness event. -/
def c8emission : Emission := ⟨"member-left", ["s2"], Payload.memberLeft ⟨"u1", "A", none⟩⟩

/-- C8 witness: a concrete leave-room of socket `s1` from a two-socket
room emits a member-left whose recipient list does not contain `s1`. -/
theorem C8_member_left_excludes_departing_witness :
    c8emission ∈ (step c8state (ClientEvent.leaveRoom ("s1") ("r") ⟨"u1", "A", none⟩)).2 ∧
      c8emission.event = "member-left" ∧ ("s1" : String) ∉ c8emission.recipients := by
  refine ⟨by decide, rfl, ?_⟩
  exact C8_member_left_excludes_departing c8state
    (ClientEvent.leaveRoom ("s1") ("r") ⟨"u1", "A", none⟩) c8emission (by decide) rfl

theorem digitChar_isDigit (n : Nat) : (digitChar n).isDigit = true := by
  unfold digitChar
  rcases h : n % 10 with _ | _ | _ | _ | _ | _ | _ | _ | _ | _ <;> simp_all

theorem isISO8601_jsToISOString (ms : Nat) : isISO8601 (jsToISOString ms) = true := by
  rcases hc : civilFromDays (ms / 1000 / 60 / 60 / 24) with ⟨y, md⟩
  rcases md with ⟨mo, d⟩
  simp [jsToISOString, isISO8601, hc, pad4, pad3, pad2, digitChar_isDigit]

/-- C9: a chat-message event changes no state and produces exactly one
new-message emission, delivered to every connection in the room
(including the sender whenever the sender is in the room), carrying the
sending member, the message text, and the server-stamped timestamp in
ISO-8601 form. -/
theorem C9_chat_broadcast (st : ServerState) (sid rid msg : String) (user : RoomMember) (now : Nat) :
    (handleChatMessage st sid rid msg user now).1 = st ∧
    (handleChatMessage st sid rid msg user now).2 =
      [⟨"new-message", adapterMembers rid st.adapter,
        Payload.newMessage user msg (jsToISOString now)⟩] ∧
    isISO8601 (jsToISOString now) = true ∧
    (sid ∈ adapterMembers rid st.adapter →
      ∀ e ∈ (handleChatMessage st sid rid msg user now).2, sid ∈ e.recipients) := by
  refine ⟨rfl, rfl, isISO8601_jsToISOString now, ?_⟩
  intro hs e he
  simp only [handleChatMessage, List.mem_singleton] at he
  subst he
  exact hs

/-- C9 witness: a concrete chat-message from `s1` in a two-socket room
is delivered to both sockets (sender included) with an ISO-8601 stamp. -/
theorem C9_chat_broadcast_witness :
    (handleChatMessage ⟨[], [(("r"), ["s1", "s2"])]⟩ ("s1") ("r") ("hi") ⟨"u1", "A", none⟩ 0).2 =
      [⟨"new-message", ["s1", "s2"], Payload.newMessage ⟨"u1", "A", none⟩ ("hi")
        ("1970-01-01T00:00:00.000Z")⟩] ∧
    ("s1" : String) ∈ (⟨"new-message", ["s1", "s2"], Payload.newMessage ⟨"u1", "A", none⟩ ("hi")
        ("1970-01-01T00:00:00.000Z")⟩ : Emission).recipients := by
  have h := C9_chat_broadcast ⟨[], [(("r"), ["s1", "s2"])]⟩ ("s1") ("r") ("hi") ⟨"u1", "A", none⟩ 0
  refine ⟨by decide, ?_⟩
  exact h.2.2.2 (by decide) _ (by decide)

theorem disconnectRooms_snapshot (sid : String) (a : List (String × List String))
    (l : List (String × RoomState)) (rid : String) (room : RoomState) (user : RoomMember)
    (hmem : (rid, room) ∈ l) (hu : mget sid room.members = some user)
    (hne : mdel sid room.members ≠ []) :
    (⟨"room-state", adapterMembers rid a,
      Payload.roomState ((mdel sid room.members).map Prod.snd)⟩ : Emission) ∈
      (disconnectRooms sid a l).2 := by
  induction l with
  | nil => simp at hmem
  | cons hd tl ih =>
    obtain ⟨rid₂, room₂⟩ := hd
    rcases List.mem_cons.mp hmem with h | h
    · obtain ⟨h₁, h₂⟩ := Prod.mk.injEq .. ▸ h
      subst h₁
      subst h₂
      have hemp : (mdel sid room.members).isEmpty = false := by
        simpa using hne
      simp only [disconnectRooms, hu, hemp, Bool.false_eq_true, if_false]
      simp
    · have := ih h
      simp only [disconnectRooms]
      rcases hm : mget sid room₂.members with _ | user₂
      · simpa using this
      · by_cases hemp : (mdel sid room₂.members).isEmpty
        · simp only [hemp, if_true]
          exact List.mem_cons_of_mem _ this
        · simp only [hemp, Bool.false_eq_true, if_false]
          exact List.mem_cons_of_mem _ (List.mem_cons_of_mem _ this)

/-- C7: when a leave-room event leaves the room non-empty, the handler
emits exactly one member-left broadcast and one fresh room-state
snapshot, the snapshot is delivered to the whole post-leave adapter
room (every remaining connection), and its member list is the room's
post-removal membership, which is also what the directory stores — one
emission, hence the same member set for every recipient.  Likewise for a
disconnect event, for each room that held the disconnecting socket and
stays non-empty. -/
theorem C7_resync_snapshot :
    (∀ st sid rid user room, mget rid st.rooms = some room →
      mdel user.id room.members ≠ [] →
      (handleLeaveRoom st sid rid user).2 =
        [⟨"member-left", (adapterMembers rid (adapterLeaveRoom sid rid st.adapter)).filter
            (fun s => s ≠ sid), Payload.memberLeft user⟩,
         ⟨"room-state", adapterMembers rid (adapterLeaveRoom sid rid st.adapter),
          Payload.roomState ((mdel user.id room.members).map Prod.snd)⟩] ∧
      mget rid (handleLeaveRoom st sid rid user).1.rooms =
        some { room with members := mdel user.id room.members }) ∧
    (∀ st sid rid user room, mget rid st.rooms = some room →
      mget sid room.members = some user →
      mdel sid room.members ≠ [] →
      (⟨"room-state", adapterMembers rid (adapterLeaveAll sid st.adapter),
        Payload.roomState ((mdel sid room.members).map Prod.snd)⟩ : Emission) ∈
        (handleDisconnect st sid).2) := by
  constructor
  · intro st sid rid user room h₁ h₂
    have hemp : (mdel user.id room.members).isEmpty = false := by
      simpa using h₂
    simp only [handleLeaveRoom, h₁, hemp, Bool.false_eq_true, if_false]
    exact ⟨trivial, mget_mset_self rid _ _⟩
  · intro st sid rid user room h₁ h₂ h₃
    exact disconnectRooms_snapshot sid _ st.rooms rid room user (mget_mem rid room st.rooms h₁) h₂ h₃

/-- C7 witness: concrete instances of both conjuncts — a leave-room of
`u1` (socket `s1`) from a two-member room delivers the post-removal
snapshot to `s2`, and a disconnect of socket-keyed member `s1` likewise
leaves a snapshot for the survivors. -/
theorem C7_resync_snapshot_witness :
    (handleLeaveRoom ⟨[(("r"), ⟨[(("u1"), ⟨"u1", "A", none⟩), (("u2"), ⟨"u2", "B", none⟩)], none⟩)],
        [(("r"), ["s1", "s2"])]⟩ ("s1") ("r") ⟨"u1", "A", none⟩).2 =
      [⟨"member-left", ["s2"], Payload.memberLeft ⟨"u1", "A", none⟩⟩,
       ⟨"room-state", ["s2"], Payload.roomState [⟨"u2", "B", none⟩]⟩] ∧
    (⟨"room-state", ["s2"], Payload.roomState [⟨"s2", "B", none⟩]⟩ : Emission) ∈
      (handleDisconnect ⟨[(("r"), ⟨[(("s1"), ⟨"s1", "A", none⟩), (("s2"), ⟨"s2", "B", none⟩)], none⟩)],
        [(("r"), ["s1", "s2"])]⟩ ("s1")).2 := by
  constructor
  · exact ((C7_resync_snapshot.1 ⟨[(("r"), ⟨[(("u1"), ⟨"u1", "A", none⟩), (("u2"), ⟨"u2", "B", none⟩)], none⟩)],
      [(("r"), ["s1", "s2"])]⟩ ("s1") ("r") ⟨"u1", "A", none⟩
      ⟨[(("u1"), ⟨"u1", "A", none⟩), (("u2"), ⟨"u2", "B", none⟩)], none⟩ (by decide) (by decide))).1
  · exact C7_resync_snapshot.2 ⟨[(("r"), ⟨[(("s1"), ⟨"s1", "A", none⟩), (("s2"), ⟨"s2", "B", none⟩)], none⟩)],
      [(("r"), ["s1", "s2"])]⟩ ("s1") ("r") ⟨"s1", "A", none⟩
      ⟨[(("s1"), ⟨"s1", "A", none⟩), (("s2"), ⟨"s2", "B", none⟩)], none⟩ (by decide) (by decide) (by decide)

theorem mem_mdel {α : Type} (k : String) (l : List (String × α)) (e : String × α)
    (h : e ∈ mdel k l) : e ∈ l := by
  induction l with
  | nil => simp [mdel] at h
  | cons e₂ r ih =>
    obtain ⟨k₂, v₂⟩ := e₂
    by_cases h₂ : k₂ = k
    · rw [mdel, if_pos h₂] at h
      exact List.mem_cons_of_mem _ h
    · rw [mdel, if_neg h₂] at h
      rcases List.mem_cons.mp h with h₃ | h₃
      · simp [h₃]
      · exact List.mem_cons_of_mem _ (ih h₃)

/-- Every room entry in a server state has a non-empty membership map. -/
def roomsNonempty (st : ServerState) : Prop :=
  ∀ e ∈ st.rooms, e.2.members ≠ []

theorem disconnectRooms_nonempty (sid : String) (a : List (String × List String))
    (l : List (String × RoomState)) (hl : ∀ e ∈ l, e.2.members ≠ []) :
    ∀ e ∈ (disconnectRooms sid a l).1, e.2.members ≠ [] := by
  induction l with
  | nil => simp [disconnectRooms]
  | cons hd tl ih =>
    obtain ⟨rid, room⟩ := hd
    have hhd : room.members ≠ [] := hl (rid, room) (List.mem_cons_self _ _)
    have htl : ∀ e ∈ tl, e.2.members ≠ [] := fun e he => hl e (List.mem_cons_of_mem _ he)
    intro e he
    simp only [disconnectRooms] at he
    rcases hm : mget sid room.members with _ | user
    · rw [hm] at he
      rcases List.mem_cons.mp he with h | h
      · subst h
        exact hhd
      · exact ih htl e h
    · rw [hm] at he
      by_cases hemp : (mdel sid room.members).isEmpty
      · simp only [hemp, if_true] at he
        exact ih htl e he
      · simp only [hemp, Bool.false_eq_true, if_false] at he
        rcases List.mem_cons.mp he with h | h
        · subst h
          simpa using hemp
        · exact ih htl e h

theorem step_roomsNonempty (st : ServerState) (ev : ClientEvent)
    (h : roomsNonempty st) : roomsNonempty (step st ev).1 := by
  cases ev with
  | joinRoom sid rid user =>
    intro e he
    simp only [step, handleJoinRoom] at he
    by_cases hr : (mget rid st.rooms).isSome
    · simp only [hr, if_true] at he
      rcases mem_mset _ _ _ _ he with h₂ | h₂
      · subst h₂
        exact mset_ne_nil _ _ _
      · exact h e h₂
    · simp only [hr, Bool.false_eq_true, if_false, mset_mset] at he
      rcases mem_mset _ _ _ _ he with h₂ | h₂
      · subst h₂
        exact mset_ne_nil _ _ _
      · exact h e h₂
  | leaveRoom sid rid user =>
    intro e he
    simp only [step, handleLeaveRoom] at he
    rcases hm : mget rid st.rooms with _ | room
    · rw [hm] at he
      exact h e he
    · rw [hm] at he
      by_cases hemp : (mdel user.id room.members).isEmpty
      · simp only [hemp, if_true] at he
        exact h e (mem_mdel _ _ _ he)
      · simp only [hemp, Bool.false_eq_true, if_false] at he
        rcases mem_mset _ _ _ _ he with h₂ | h₂
        · subst h₂
          simpa using hemp
        · exact h e h₂
  | syncUrl sid rid url ts =>
    intro e he
    simp only [step, handleSyncUrl] at he
    rcases hm : mget rid st.rooms with _ | room
    · rw [hm] at he
      exact h e he
    · rw [hm] at he
      rcases mem_mset _ _ _ _ he with h₂ | h₂
      · subst h₂
        exact h (rid, room) (mget_mem rid room st.rooms hm)
      · exact h e h₂
  | videoStateChange sid rid p ts =>
    intro e he
    rcases hm : mget rid st.rooms with _ | room
    · simp only [step, handleVideoStateChange, hm] at he
      exact h e he
    · rcases hv : room.videoState with _ | vs
      · simp only [step, handleVideoStateChange, hm, hv] at he
        exact h e he
      · simp only [step, handleVideoStateChange, hm, hv] at he
        rcases mem_mset _ _ _ _ he with h₂ | h₂
        · subst h₂
          exact h (rid, room) (mget_mem rid room st.rooms hm)
        · exact h e h₂
  | requestVideoState sid rid =>
    intro e he
    rcases hm : mget rid st.rooms with _ | room
    · simp only [step, handleRequestVideoState, hm] at he
      exact h e he
    · rcases hv : room.videoState with _ | vs
      · simp only [step, handleRequestVideoState, hm, hv] at he
        exact h e he
      · simp only [step, handleRequestVideoState, hm, hv] at he
        exact h e he
  | chatMessage sid rid msg user now =>
    intro e he
    simp only [step, handleChatMessage] at he
    exact h e he
  | disconnect sid =>
    intro e he
    simp only [step, handleDisconnect] at he
    exact disconnectRooms_nonempty sid _ st.rooms h e he

theorem runTrace_roomsNonempty (evs : List ClientEvent) :
    roomsNonempty (runTrace evs).1 := by
  suffices hgen : ∀ (st : ServerState) (ems : List Emission), roomsNonempty st →
      roomsNonempty (evs.foldl (fun acc e => ((step acc.1 e).1, acc.2 ++ (step acc.1 e).2)) (st, ems)).1 by
    exact hgen initialState [] (by intro e he; simp [initialState] at he)
  induction evs with
  | nil => intro st ems h; exact h
  | cons ev rest ih =>
    intro st ems h
    exact ih (step st ev).1 (ems ++ (step st ev).2) (step_roomsNonempty st ev h)

/-- C6: after any trace of inbound events from process start, a room id
is present in the directory only with a non-empty membership map (no
dangling empty rooms: a leave or disconnect that empties a room deletes
it in the same dispatch cycle), and every join-room event establishes a
directory entry for its room with at least one member. -/
theorem C6_directory_iff_nonempty :
    (∀ (evs : List ClientEvent) (rid : String) (room : RoomState),
      mget rid (runTrace evs).1.rooms = some room → room.members ≠ []) ∧
    (∀ (st : ServerState) (sid rid : String) (user : RoomMember),
      ∃ room, mget rid (handleJoinRoom st sid rid user).1.rooms = some room ∧
        room.members ≠ []) := by
  constructor
  · intro evs rid room hg
    exact runTrace_roomsNonempty evs (rid, room) (mget_mem rid room _ hg)
  · intro st sid rid user
    exact ⟨_, mget_mset_self rid _ _, mset_ne_nil _ _ _⟩

/-- C6 witness: the trace join, join, leave, leave on room `r` ends with
the room absent from the directory, and the intermediate single-member
state is non-empty as the theorem asserts for every reachable state. -/
theorem C6_directory_iff_nonempty_witness :
    (mget ("r") (runTrace [ClientEvent.joinRoom ("s1") ("r") ⟨"u1", "A", none⟩,
        ClientEvent.joinRoom ("s2") ("r") ⟨"u2", "B", none⟩,
        ClientEvent.leaveRoom ("s1") ("r") ⟨"u1", "A", none⟩,
        ClientEvent.leaveRoom ("s2") ("r") ⟨"u2", "B", none⟩]).1.rooms = none) ∧
    (⟨[(("u1"), ⟨"u1", "A", none⟩)], none⟩ : RoomState).members ≠ [] := by
  refine ⟨by decide, ?_⟩
  exact (C6_directory_iff_nonempty.1 [ClientEvent.joinRoom ("s1") ("r") ⟨"u1", "A", none⟩]
    ("r") ⟨[(("u1"), ⟨"u1", "A", none⟩)], none⟩ (by decide))

/-- C1 evaluated at the failing input: members `u1` and `u2` join room
`r` from sockets `s1` and `s2` (member ids supplied by the session
layer, as this repository's client does, so they differ from the socket
ids).  Socket `s1` then disconnects.  The disconnect handler matches
membership keys against `socket.id`, finds none, and so performs no
cleanup: no member-left broadcast is emitted to the remaining member
and the room still has both membership records — contradicting the
claimed single member-left broadcast and post-disconnect size 1. -/
theorem C1_disconnect_skips_cleanup :
    ((runTrace [ClientEvent.joinRoom ("s1") ("r") ⟨"u1", "Alice", none⟩,
        ClientEvent.joinRoom ("s2") ("r") ⟨"u2", "Bob", none⟩,
        ClientEvent.disconnect ("s1")]).2.filter
      (fun e => e.event == "member-left")) = [] ∧
    (mget ("r") (runTrace [ClientEvent.joinRoom ("s1") ("r") ⟨"u1", "Alice", none⟩,
        ClientEvent.joinRoom ("s2") ("r") ⟨"u2", "Bob", none⟩,
        ClientEvent.disconnect ("s1")]).1.rooms).map (fun room => room.members.length) =
      some 2 := by
  decide

/-! Lemmas about `breakAt` used to analyse `convertToEmbedUrl`. -/

theorem breakAt_append_no (p : Char → Bool) (xs ys : List Char)
    (hxs : ∀ a ∈ xs, p a = false) :
    breakAt p (xs ++ ys) = (xs ++ (breakAt p ys).1, (breakAt p ys).2) := by
  induction xs with
  | nil => simp
  | cons a rest ih =>
    have ha : p a = false := hxs a (List.mem_cons_self _ _)
    simp [breakAt, ha, ih (fun b hb => hxs b (List.mem_cons_of_mem _ hb))]

